import Mathlib

/-!
Shallow embedding of `src/imgconv.py` (the `imgconv` tool).

Python values are modelled as follows:
* a Python `str` is a `List Char` (`PyStr`), lowercasing modelled on the
  ASCII letters that appear in file names and extensions;
* a raised Python exception is an `Except PyError` result, where `PyError`
  records the concrete exception class and its payload;
* a decoded `PIL.Image` object is an `Image`: width, height, and an opaque
  pixel term.  Pixel semantics of the external decoders (`pyheif`,
  `PIL.Image.open`) and of `resize` is delegated to third-party libraries in
  the source, so decoding is an oracle parameter (a function from file name
  to `Image`) and `resize` builds a free `PixData.resampled` term while
  setting the exact requested size, which is what Pillow guarantees;
* the numeric expression `height * (min_width / width)` is evaluated by the
  source in IEEE double precision; the embedding evaluates it exactly over
  `ℚ` and models the Python built-in `round` (half to even) as `pyRound`;
* writing the output document (`PIL.Image.save`) is modelled by returning a
  `SaveCall` record of all the arguments of the single `save` invocation;
  an `Except.error` outcome means `save` was never reached, hence no output
  file is created.  `images_to_pdf` additionally returns the list of source
  files that were decoded before the outcome, so "fails before any decoding"
  is the statement that this trace is empty.
-/

/-- Python strings, modelled as lists of characters. -/
abbrev PyStr := List Char

/-- String literal helper: the `PyStr` of a Lean string literal. -/
def pyStr (s : String) : PyStr := s.toList

/-- Python `str.lower` on one character, on the ASCII range: the uppercase
letters `A`..`Z` (codepoints 65..90) map to `a`..`z` (codepoints 97..122),
everything else is unchanged. -/
def lowerChar (c : Char) : Char :=
  if 65 ≤ c.toNat ∧ c.toNat ≤ 90 then Char.ofNat (c.toNat + 32) else c

/-- Python `str.lower` (`filename.lower()` in `has_extension`). -/
def pyLower (s : PyStr) : PyStr := s.map lowerChar

/-- Python `str.endswith`: the argument is a suffix of the string. -/
def pyEndsWith (s ext : PyStr) : Bool := List.isSuffixOf ext s

/-- `has_extension(filename, exts)` from `src/imgconv.py`: lowercase the
filename, then test whether it ends with any extension in `exts`. -/
def has_extension (filename : PyStr) (exts : List PyStr) : Bool :=
  let filename := pyLower filename
  exts.any (fun ext => pyEndsWith filename ext)

/-- The concrete Python exceptions the embedded code can raise.
`nameError` carries the undefined variable name: it is raised when an
expression references a name that is not bound (as the f-string on line 52
of `src/imgconv.py` does with `keys`). -/
inductive PyError where
  | valueError (msg : String)
  | typeError (msg : String)
  | nameError (undefinedName : String)
  | zeroDivisionError (msg : String)
  | indexError (msg : String)
  deriving DecidableEq

/-- The resampling filters of `PIL.Image.Resampling`. -/
inductive Resampling where
  | NEAREST
  | BOX
  | BILINEAR
  | HAMMING
  | BICUBIC
  | LANCZOS
  deriving DecidableEq

/-- Opaque pixel contents of an in-memory image.  `src` tags pixels decoded
from a named source; `resampled` is the free term for `resize`, whose actual
pixel semantics lives in Pillow. -/
inductive PixData where
  | src (tag : PyStr)
  | resampled (p : PixData) (size : ℕ × ℕ) (resample : Resampling)
  deriving DecidableEq

/-- An in-memory decoded image (`PIL.Image` object): width, height, pixels. -/
structure Image where
  width : ℕ
  height : ℕ
  pix : PixData
  deriving DecidableEq

/-- `im.size` in Pillow is the pair `(width, height)`. -/
def Image.size (im : Image) : ℕ × ℕ := (im.width, im.height)

/-- `im.resize(size, resample)`: a new image of exactly the requested size
whose pixels are the resampled pixels of `im`.  The input image is not
modified. -/
def Image.resize (im : Image) (size : ℕ × ℕ) (resample : Resampling) : Image :=
  ⟨size.1, size.2, PixData.resampled im.pix size resample⟩

/-- Python built-in `round`: round half to even (banker's rounding).
On a non-tie the nearest integer is `round q = ⌊q + 1/2⌋`; on an exact tie
(fractional part `1/2`) the even neighbour is chosen. -/
def pyRound (q : ℚ) : ℤ :=
  if 2 * q = 2 * (⌊q⌋ : ℚ) + 1 then
    (if (⌊q⌋ : ℤ) % 2 = 0 then ⌊q⌋ else ⌊q⌋ + 1)
  else round q

/-- Python built-in `min` over a sequence of naturals: raises `ValueError`
on an empty sequence, otherwise returns the least element. -/
def pyMin (l : List ℕ) : Except PyError ℕ :=
  match l.min? with
  | none => Except.error (PyError.valueError "min() arg is an empty sequence")
  | some m => Except.ok m

/-- Python true division `a / b` on naturals: raises `ZeroDivisionError`
when `b = 0`, otherwise the exact rational quotient. -/
def pyDiv (a b : ℕ) : Except PyError ℚ :=
  if b = 0 then Except.error (PyError.zeroDivisionError "division by zero")
  else Except.ok ((a : ℚ) / (b : ℚ))

/-- The loop body of `adjust_widths`: for each image compute
`new_height = round(height * (min_width / width))` and resize to
`(min_width, new_height)`.  The division raises `ZeroDivisionError` at the
first zero-width image, exactly as the Python loop would. -/
def adjustLoop (min_width : ℕ) (resample : Resampling) :
    List Image → Except PyError (List Image)
  | [] => Except.ok []
  | image :: rest => do
      let scale ← pyDiv min_width image.width
      let new_height := pyRound ((image.height : ℚ) * scale)
      let new_size := (min_width, new_height.toNat)
      let tail ← adjustLoop min_width resample rest
      Except.ok (image.resize new_size resample :: tail)

/-- `adjust_widths(images, resample)` from `src/imgconv.py`: find the
narrowest width over all images (Python `min`, which raises on an empty
list), then rescale every image to that width with an aspect-ratio
preserving rounded height.  The Python default for `resample` is
`Resampling.LANCZOS`; the embedding passes it explicitly. -/
def adjust_widths (images : List Image) (resample : Resampling) :
    Except PyError (List Image) := do
  let min_width ← pyMin (images.map (fun im => im.size.1))
  adjustLoop min_width resample images

/-- Python `key in kwargs` on a keyword-argument dictionary, modelled as an
association list. -/
def pyIn {V : Type} (key : PyStr) (kwargs : List (PyStr × V)) : Bool :=
  kwargs.any (fun kv => kv.1 = key)

/-- The reserved-key test of `images_to_pdf`: line 50 iterates over the two
reserved names `append_images` and `save_all` and trips on the first one
present in `kwargs`. -/
def reservedKeyIn {V : Type} (kwargs : List (PyStr × V)) : Bool :=
  pyIn (pyStr "append_images") kwargs || pyIn (pyStr "save_all") kwargs

/-- The record of the single `PIL.Image.save` call made on line 65 of
`src/imgconv.py`: the image whose `save` method is invoked (the first page),
the destination path, the explicit format argument, the `save_all` flag, the
appended pages, and the forwarded extra keyword arguments. -/
structure SaveCall (V : Type) where
  base : Image
  outfile : PyStr
  format : PyStr
  save_all : Bool
  append_images : List Image
  kwargs : List (PyStr × V)
  deriving DecidableEq

/-- The loading loop of `images_to_pdf` (lines 56-61): each source file is
decoded by `load_heif` when its name has a `.heic` or `.heif` extension and
by `PIL.Image.open` otherwise, in source order.  Both decoders are external
libraries, passed here as oracles. -/
def loadedImages (load_heif pil_open : PyStr → Image) (files : List PyStr) :
    List Image :=
  files.map (fun file =>
    if has_extension file [pyStr ".heic", pyStr ".heif"] then load_heif file
    else pil_open file)

/-- The filter chain of `images_to_pdf` (lines 62-64): when `filters` is not
`None`, each callback in list order replaces the whole image list with its
return value. -/
def finalImages (load_heif pil_open : PyStr → Image) (files : List PyStr)
    (filters : Option (List (List Image → List Image))) : List Image :=
  match filters with
  | none => loadedImages load_heif pil_open files
  | some fs =>
      fs.foldl (fun images callback => callback images)
        (loadedImages load_heif pil_open files)

/-- `images_to_pdf(files, outfile, filters, **kwargs)` from `src/imgconv.py`.
Checks, in order: an empty `files` list raises
`ValueError("empty image file list")`; a reserved keyword argument
(`append_images` or `save_all`) makes line 52 raise — and because the
f-string of the `TypeError` message references the undefined variable
`keys`, what is actually raised is a `NameError`, before any file is
decoded.  Otherwise every file is decoded, the filter chain runs, and
`images[0].save(outfile, "PDF", save_all=True, append_images=images[1:],
**kwargs)` is recorded as a `SaveCall`; if the filter chain returned an
empty list, `images[0]` raises `IndexError`.  The second component is the
list of files decoded before the outcome. -/
def images_to_pdf {V : Type} (load_heif pil_open : PyStr → Image)
    (files : List PyStr) (outfile : PyStr)
    (filters : Option (List (List Image → List Image)))
    (kwargs : List (PyStr × V)) :
    Except PyError (SaveCall V) × List PyStr :=
  if files.isEmpty then
    (Except.error (PyError.valueError "empty image file list"), [])
  else if reservedKeyIn kwargs then
    (Except.error (PyError.nameError "keys"), [])
  else
    match finalImages load_heif pil_open files filters with
    | [] => (Except.error (PyError.indexError "list index out of range"), files)
    | im :: rest =>
        (Except.ok ⟨im, outfile, pyStr "PDF", true, rest, kwargs⟩, files)

/-- Modelled from the spec: "writing a single multi-page document to
`outFile` using whatever encoder corresponds to the extension of `outFile`"
(section 4.3 step 3).  The Pillow encoder name inferred from the extension
of the destination, for the formats the spec names. -/
def encoderForExtension (outfile : PyStr) : PyStr :=
  if has_extension outfile [pyStr ".pdf"] then pyStr "PDF"
  else if has_extension outfile [pyStr ".png"] then pyStr "PNG"
  else if has_extension outfile [pyStr ".jpg", pyStr ".jpeg"] then pyStr "JPEG"
  else if has_extension outfile [pyStr ".tiff", pyStr ".tif"] then pyStr "TIFF"
  else pyStr "UNSUPPORTED"

/-- A concrete two-image list (widths 3 and 5) used to instantiate
universally quantified theorems about `adjust_widths`. -/
def specImages : List Image :=
  [⟨3, 2, PixData.src (pyStr "a")⟩, ⟨5, 7, PixData.src (pyStr "b")⟩]

/-! ## Helper lemmas -/

/-- `Char.ofNat` round-trips through `toNat` on the ASCII lowercase range. -/
theorem char_toNat_ofNat_lower (n : ℕ) (h1 : 97 ≤ n) (h2 : n ≤ 122) :
    (Char.ofNat n).toNat = n := by
  have hv : n.isValidChar := Or.inl (by omega)
  simp [Char.ofNat, hv, Char.ofNatAux, Char.toNat, UInt32.toNat,
    BitVec.toNat_ofNatLt]

/-- Lowercasing never produces an ASCII uppercase letter. -/
theorem lowerChar_toNat_not_upper (c : Char) :
    ¬(65 ≤ (lowerChar c).toNat ∧ (lowerChar c).toNat ≤ 90) := by
  unfold lowerChar
  split
  · rename_i h
    have ht : (Char.ofNat (c.toNat + 32)).toNat = c.toNat + 32 :=
      char_toNat_ofNat_lower _ (by omega) (by omega)
    omega
  · rename_i h
    exact h

/-- `pyRound` is the identity on integers coming from naturals. -/
theorem pyRound_natCast (n : ℕ) : pyRound (n : ℚ) = n := by
  unfold pyRound
  rw [Int.floor_natCast]
  split
  · rename_i h
    exfalso
    have h2 : ((n : ℚ)) = (n : ℚ) + 1 / 2 := by push_cast at h ⊢; linarith
    linarith
  · exact round_natCast n

/-! ## Claim theorems -/

/-- C6: `has_extension` returns true iff the lowercased filename ends with
some suffix in the set; it is a pure total function (no side effects, no
error cases in the embedding); an empty suffix set never matches; and the
two concrete examples from the spec hold. -/
theorem has_extension_spec :
    (∀ (filename : PyStr) (exts : List PyStr),
        has_extension filename exts = true ↔
          ∃ ext ∈ exts, ext <:+ pyLower filename) ∧
    (∀ filename : PyStr, has_extension filename [] = false) ∧
    has_extension (pyStr "IMG.JPG") [pyStr ".jpg"] = true ∧
    has_extension (pyStr "img.jpeg") [pyStr ".jpg"] = false := by
  refine ⟨?_, ?_, ?_, ?_⟩
  · intro filename exts
    simp [has_extension, pyEndsWith, List.any_eq_true,
      List.isSuffixOf_iff_suffix]
  · intro filename
    rfl
  · decide
  · decide

/-- C9: a suffix containing an ASCII uppercase letter never matches, because
`has_extension` lowercases only the filename and compares the suffix
verbatim; in particular `has_extension("img.jpg", [".JPG"])` is false. -/
theorem has_extension_uppercase_suffix_never_matches :
    (∀ (filename ext : PyStr),
        (∃ c ∈ ext, 65 ≤ c.toNat ∧ c.toNat ≤ 90) →
        pyEndsWith (pyLower filename) ext = false) ∧
    has_extension (pyStr "img.jpg") [pyStr ".JPG"] = false := by
  constructor
  · intro filename ext hex
    obtain ⟨c, hc, huc⟩ := hex
    refine Bool.eq_false_iff.mpr ?_
    intro h
    have hsuf : ext <:+ pyLower filename :=
      List.isSuffixOf_iff_suffix.mp h
    have hmem : c ∈ pyLower filename := List.IsSuffix.mem hc hsuf
    obtain ⟨d, hd, hcd⟩ := List.mem_map.mp hmem
    exact lowerChar_toNat_not_upper d (hcd ▸ huc)
  · decide

/-- C4: `images_to_pdf` on an empty source list raises
`ValueError("empty image file list")` (the UsageError of the spec taxonomy):
the result is an error, so `save` is never reached and no output file is
created, and the decode trace is empty. -/
theorem images_to_pdf_empty_files {V : Type}
    (load_heif pil_open : PyStr → Image) (outfile : PyStr)
    (filters : Option (List (List Image → List Image)))
    (kwargs : List (PyStr × V)) :
    images_to_pdf load_heif pil_open [] outfile filters kwargs =
      (Except.error (PyError.valueError "empty image file list"), []) := rfl

/-- C10: the empty-list check precedes the reserved-key check: on an empty
source list the empty-list `ValueError` is raised even when `kwargs`
contains a reserved key. -/
theorem images_to_pdf_empty_check_precedes_reserved {V : Type}
    (load_heif pil_open : PyStr → Image) (outfile : PyStr)
    (filters : Option (List (List Image → List Image)))
    (kwargs : List (PyStr × V))
    (hres : reservedKeyIn kwargs = true) :
    images_to_pdf load_heif pil_open [] outfile filters kwargs =
      (Except.error (PyError.valueError "empty image file list"), []) := rfl

/-- Witness for C10 at a concrete call with a reserved key present. -/
theorem images_to_pdf_empty_check_precedes_reserved_witness :
    reservedKeyIn [(pyStr "save_all", (0 : ℕ))] = true ∧
    images_to_pdf (fun f => ⟨1, 1, PixData.src f⟩)
        (fun f => ⟨1, 1, PixData.src f⟩) [] (pyStr "out.pdf") none
        [(pyStr "save_all", (0 : ℕ))] =
      (Except.error (PyError.valueError "empty image file list"), []) :=
  ⟨by decide,
   images_to_pdf_empty_check_precedes_reserved _ _ _ _ _ (by decide)⟩

/-- C1 (code bug): supplying a reserved key on a non-empty source list does
fail before any file is decoded (the trace is empty), but the raised
exception is a `NameError` for the undefined variable `keys` — the f-string
of the intended `TypeError` message references `keys`, which is not bound —
so the error is not the TypeError of line 52 and does not identify the
offending key. -/
theorem images_to_pdf_reserved_key_bug :
    images_to_pdf (fun f => ⟨1, 1, PixData.src f⟩)
        (fun f => ⟨1, 1, PixData.src f⟩) [pyStr "a.jpg"] (pyStr "out.pdf")
        none [(pyStr "save_all", (0 : ℕ))] =
      (Except.error (PyError.nameError "keys"), []) := by rfl

/-- C8 (code bug): `adjust_widths` has no explicit empty-list guard; on the
empty list it fails with the `ValueError` inherited from the Python built-in
`min` applied to an empty sequence. -/
theorem adjust_widths_empty_min_error (resample : Resampling) :
    adjust_widths [] resample =
      Except.error (PyError.valueError "min() arg is an empty sequence") := rfl

/-- The loop of `adjust_widths` on a list of positive-width images produces
exactly the pointwise resize with the rounded aspect-preserving height. -/
theorem adjustLoop_eq_map (mw : ℕ) (resample : Resampling)
    (images : List Image) (hw : ∀ im ∈ images, 0 < im.width) :
    adjustLoop mw resample images = Except.ok (images.map (fun im =>
      im.resize (mw,
        (pyRound ((im.height : ℚ) * ((mw : ℚ) / (im.width : ℚ)))).toNat)
        resample)) := by
  induction images with
  | nil => rfl
  | cons hd tl ih =>
    have hhd : hd.width ≠ 0 :=
      Nat.pos_iff_ne_zero.mp (hw hd (List.mem_cons_self hd tl))
    have ih' := ih (fun im h => hw im (List.mem_cons_of_mem _ h))
    simp only [adjustLoop, pyDiv, if_neg hhd, ih', List.map_cons]
    rfl

/-- Folding function composition and then applying equals folding the
applications. -/
theorem foldl_comp_apply {α : Type} (fs : List (α → α)) (g : α → α) (x : α) :
    (fs.foldl (fun g f => f ∘ g) g) x = fs.foldl (fun y f => f y) (g x) := by
  induction fs generalizing g x with
  | nil => rfl
  | cons f tl ih =>
    simp only [List.foldl_cons]
    exact ih _ _

/-- When the checks pass and the filtered list is non-empty, `images_to_pdf`
records exactly one `save` call: first image as base, the rest appended, the
literal `PDF` format, `save_all` set, and `kwargs` forwarded unchanged. -/
theorem images_to_pdf_encode_step {V : Type}
    (load_heif pil_open : PyStr → Image) (files : List PyStr)
    (outfile : PyStr) (filters : Option (List (List Image → List Image)))
    (kwargs : List (PyStr × V)) (im : Image) (rest : List Image)
    (hne : files ≠ []) (hkw : reservedKeyIn kwargs = false)
    (hfinal : finalImages load_heif pil_open files filters = im :: rest) :
    images_to_pdf load_heif pil_open files outfile filters kwargs =
      (Except.ok ⟨im, outfile, pyStr "PDF", true, rest, kwargs⟩, files) := by
  have hempty : files.isEmpty = false := by simp [List.isEmpty_iff, hne]
  simp [images_to_pdf, hempty, hkw, hfinal]

/-- C3: `adjust_widths` on a non-empty list of (positive-width) images: the
minimum `min_width` of the input widths exists and is both a member and a
lower bound of the input widths; the output is the pointwise resize of the
input, in order, to `(min_width, round(height * (min_width / width)))` with
the given resample method; the output has the same length; and the minimum
output width equals the minimum input width.  The inputs are untouched:
every output image is a fresh `resize` of the corresponding input. -/
theorem adjust_widths_spec (images : List Image) (resample : Resampling)
    (hne : images ≠ []) (hw : ∀ im ∈ images, 0 < im.width) :
    ∃ (min_width : ℕ) (out : List Image),
      pyMin (images.map Image.width) = Except.ok min_width ∧
      min_width ∈ images.map Image.width ∧
      (∀ im ∈ images, min_width ≤ im.width) ∧
      adjust_widths images resample = Except.ok out ∧
      out = images.map (fun im =>
        im.resize (min_width,
          (pyRound ((im.height : ℚ) *
            ((min_width : ℚ) / (im.width : ℚ)))).toNat) resample) ∧
      out.length = images.length ∧
      pyMin (out.map Image.width) = Except.ok min_width := by
  have hmap : images.map Image.width ≠ [] := by simpa using hne
  obtain ⟨m, hm⟩ : ∃ m, (images.map Image.width).min? = some m := by
    cases hmin : (images.map Image.width).min? with
    | none => exact absurd (List.min?_eq_none_iff.mp hmin) hmap
    | some m => exact ⟨m, rfl⟩
  obtain ⟨hmem, hle⟩ := List.min?_eq_some_iff'.mp hm
  have hpy : pyMin (images.map Image.width) = Except.ok m := by
    simp [pyMin, hm]
  have hpy2 : pyMin (images.map (fun im => im.size.1)) = Except.ok m := hpy
  refine ⟨m, _, hpy, hmem, ?_, ?_, rfl, ?_, ?_⟩
  · intro im him
    exact hle _ (List.mem_map_of_mem Image.width him)
  · calc adjust_widths images resample
        = adjustLoop m resample images := by
          simp only [adjust_widths]
          rw [hpy2]
          rfl
      _ = _ := adjustLoop_eq_map m resample images hw
  · simp
  · rw [List.map_map]
    have hconst : images.map (Image.width ∘ (fun im =>
        im.resize (m,
          (pyRound ((im.height : ℚ) *
            ((m : ℚ) / (im.width : ℚ)))).toNat) resample)) =
        images.map (fun _ => m) :=
      List.map_congr_left (fun a _ => rfl)
    rw [hconst]
    obtain ⟨a, ha⟩ := List.exists_mem_of_ne_nil images hne
    have hmm : (images.map (fun _ => m)).min? = some m :=
      List.min?_eq_some_iff'.mpr
        ⟨List.mem_map.mpr ⟨a, ha, rfl⟩,
         fun b hb => by
           obtain ⟨c, hc, hbc⟩ := List.mem_map.mp hb
           exact hbc ▸ le_refl m⟩
    rw [List.map_const'] at hmm
    simp [pyMin, hmm]

/-- Witness for C3 on the concrete two-image list of widths 3 and 5. -/
theorem adjust_widths_spec_witness :
    (specImages ≠ [] ∧ ∀ im ∈ specImages, 0 < im.width) ∧
    (∃ (min_width : ℕ) (out : List Image),
      pyMin (specImages.map Image.width) = Except.ok min_width ∧
      min_width ∈ specImages.map Image.width ∧
      (∀ im ∈ specImages, min_width ≤ im.width) ∧
      adjust_widths specImages Resampling.LANCZOS = Except.ok out ∧
      out = specImages.map (fun im =>
        im.resize (min_width,
          (pyRound ((im.height : ℚ) *
            ((min_width : ℚ) / (im.width : ℚ)))).toNat) Resampling.LANCZOS) ∧
      out.length = specImages.length ∧
      pyMin (out.map Image.width) = Except.ok min_width) :=
  ⟨⟨by decide, by decide⟩,
   adjust_widths_spec specImages Resampling.LANCZOS (by decide) (by decide)⟩

/-- C7: on a single-image list, `adjust_widths` returns exactly that image
resized to its own width and its own (unchanged) height. -/
theorem adjust_widths_singleton (im : Image) (resample : Resampling)
    (hw : 0 < im.width) :
    adjust_widths [im] resample =
      Except.ok [im.resize (im.width, im.height) resample] := by
  have h0 : im.width ≠ 0 := Nat.pos_iff_ne_zero.mp hw
  have hmin : pyMin ([im].map (fun i => i.size.1)) = Except.ok im.width := rfl
  have hloop := adjustLoop_eq_map im.width resample [im]
    (by
      intro i hi
      rw [List.mem_singleton] at hi
      rw [hi]
      exact hw)
  have hdiv : ((im.width : ℚ) / (im.width : ℚ)) = 1 :=
    div_self (by exact_mod_cast h0)
  calc adjust_widths [im] resample
      = adjustLoop im.width resample [im] := by
        simp only [adjust_widths]
        rw [hmin]
        rfl
    _ = Except.ok [im.resize (im.width, im.height) resample] := by
        rw [hloop]
        simp only [List.map_cons, List.map_nil]
        rw [hdiv, mul_one, pyRound_natCast, Int.toNat_natCast]

/-- Witness for C7 on a concrete 4 by 9 image. -/
theorem adjust_widths_singleton_witness :
    0 < (⟨4, 9, PixData.src (pyStr "c")⟩ : Image).width ∧
    adjust_widths [⟨4, 9, PixData.src (pyStr "c")⟩] Resampling.BICUBIC =
      Except.ok [(⟨4, 9, PixData.src (pyStr "c")⟩ : Image).resize (4, 9)
        Resampling.BICUBIC] :=
  ⟨by decide, adjust_widths_singleton ⟨4, 9, PixData.src (pyStr "c")⟩
    Resampling.BICUBIC (by decide)⟩

/-- C5: the filter chain: filters are applied strictly in list order, each
one receiving the full current list and its return value fully replacing the
list before the next filter runs (the head filter runs first and the tail of
the chain only ever sees its output); the final list is the left-to-right
composition of all filters applied to the loaded list; and that final list
is exactly the list encoded (first image as base, rest appended, in order). -/
theorem images_to_pdf_filter_chain {V : Type}
    (load_heif pil_open : PyStr → Image) (files : List PyStr)
    (outfile : PyStr) (kwargs : List (PyStr × V))
    (fs : List (List Image → List Image))
    (hne : files ≠ []) (hkw : reservedKeyIn kwargs = false) :
    (∀ (f : List Image → List Image) (gs : List (List Image → List Image)),
        finalImages load_heif pil_open files (some (f :: gs)) =
          gs.foldl (fun images callback => callback images)
            (f (loadedImages load_heif pil_open files))) ∧
    finalImages load_heif pil_open files (some fs) =
      (fs.foldl (fun g f => f ∘ g) id)
        (loadedImages load_heif pil_open files) ∧
    (∀ (im : Image) (rest : List Image),
        finalImages load_heif pil_open files (some fs) = im :: rest →
        images_to_pdf load_heif pil_open files outfile (some fs) kwargs =
          (Except.ok ⟨im, outfile, pyStr "PDF", true, rest, kwargs⟩, files)) := by
  refine ⟨?_, ?_, ?_⟩
  · intro f gs
    simp [finalImages, List.foldl_cons]
  · rw [foldl_comp_apply]
    simp [finalImages]
  · intro im rest hfinal
    exact images_to_pdf_encode_step load_heif pil_open files outfile
      (some fs) kwargs im rest hne hkw hfinal

/-- Witness for C5 at a concrete call: one source file, a duplicating
filter, no extra keyword arguments. -/
theorem images_to_pdf_filter_chain_witness :
    ([pyStr "a.jpg"] : List PyStr) ≠ [] ∧
    reservedKeyIn ([] : List (PyStr × ℕ)) = false ∧
    ((∀ (f : List Image → List Image)
        (gs : List (List Image → List Image)),
        finalImages (fun n => ⟨2, 2, PixData.src n⟩)
            (fun n => ⟨2, 3, PixData.src n⟩) [pyStr "a.jpg"]
            (some (f :: gs)) =
          gs.foldl (fun images callback => callback images)
            (f (loadedImages (fun n => ⟨2, 2, PixData.src n⟩)
              (fun n => ⟨2, 3, PixData.src n⟩) [pyStr "a.jpg"]))) ∧
    finalImages (fun n => ⟨2, 2, PixData.src n⟩)
        (fun n => ⟨2, 3, PixData.src n⟩) [pyStr "a.jpg"]
        (some [fun l => l ++ l]) =
      ([fun l => l ++ l].foldl (fun g f => f ∘ g) id)
        (loadedImages (fun n => ⟨2, 2, PixData.src n⟩)
          (fun n => ⟨2, 3, PixData.src n⟩) [pyStr "a.jpg"]) ∧
    (∀ (im : Image) (rest : List Image),
        finalImages (fun n => ⟨2, 2, PixData.src n⟩)
            (fun n => ⟨2, 3, PixData.src n⟩) [pyStr "a.jpg"]
            (some [fun l => l ++ l]) = im :: rest →
        images_to_pdf (fun n => ⟨2, 2, PixData.src n⟩)
            (fun n => ⟨2, 3, PixData.src n⟩) [pyStr "a.jpg"]
            (pyStr "out.pdf") (some [fun l => l ++ l])
            ([] : List (PyStr × ℕ)) =
          (Except.ok ⟨im, pyStr "out.pdf", pyStr "PDF", true, rest, []⟩,
            [pyStr "a.jpg"]))) :=
  ⟨by decide, by decide,
   images_to_pdf_filter_chain (fun n => ⟨2, 2, PixData.src n⟩)
     (fun n => ⟨2, 3, PixData.src n⟩) [pyStr "a.jpg"] (pyStr "out.pdf")
     ([] : List (PyStr × ℕ)) [fun l => l ++ l] (by decide) (by decide)⟩

/-- C2 counterexample: the claim says the document is encoded "using the
encoder corresponding to the extension of the output file", but line 65
passes the literal format `PDF` to `save`.  With output path `out.png` the
recorded save call carries format `PDF`, which differs from the
extension-inferred encoder (`PNG`). -/
theorem images_to_pdf_extension_encoder_counterexample :
    (images_to_pdf (fun n => ⟨1, 1, PixData.src n⟩)
        (fun n => ⟨1, 1, PixData.src n⟩) [pyStr "a.png"] (pyStr "out.png")
        none ([] : List (PyStr × ℕ))).1 =
      Except.ok ⟨⟨1, 1, PixData.src (pyStr "a.png")⟩, pyStr "out.png",
        pyStr "PDF", true, [], []⟩ ∧
    pyStr "PDF" ≠ encoderForExtension (pyStr "out.png") := by
  constructor
  · rfl
  · decide

/-- C2 (amended): on a non-empty source list, after loading and filtering,
`images_to_pdf` writes the final list as a single multi-page document —
first image of the final list as the base page, the remaining images
appended in order, `save_all` set, the encoder options forwarded unchanged —
always with the `PDF` encoder, regardless of the extension of the output
path. -/
theorem images_to_pdf_always_pdf_encoder {V : Type}
    (load_heif pil_open : PyStr → Image) (files : List PyStr)
    (outfile : PyStr) (filters : Option (List (List Image → List Image)))
    (kwargs : List (PyStr × V)) (im : Image) (rest : List Image)
    (hne : files ≠ []) (hkw : reservedKeyIn kwargs = false)
    (hfinal : finalImages load_heif pil_open files filters = im :: rest) :
    images_to_pdf load_heif pil_open files outfile filters kwargs =
      (Except.ok ⟨im, outfile, pyStr "PDF", true, rest, kwargs⟩, files) :=
  images_to_pdf_encode_step load_heif pil_open files outfile filters
    kwargs im rest hne hkw hfinal

/-- Witness for the amended C2 at a concrete call with a non-PDF output
extension and a forwarded `quality` option. -/
theorem images_to_pdf_always_pdf_encoder_witness :
    ([pyStr "x.jpg"] : List PyStr) ≠ [] ∧
    reservedKeyIn [(pyStr "quality", (50 : ℕ))] = false ∧
    finalImages (fun n => ⟨5, 6, PixData.src n⟩)
        (fun n => ⟨5, 6, PixData.src n⟩) [pyStr "x.jpg"] none =
      [⟨5, 6, PixData.src (pyStr "x.jpg")⟩] ∧
    images_to_pdf (fun n => ⟨5, 6, PixData.src n⟩)
        (fun n => ⟨5, 6, PixData.src n⟩) [pyStr "x.jpg"] (pyStr "out.png")
        none [(pyStr "quality", (50 : ℕ))] =
      (Except.ok ⟨⟨5, 6, PixData.src (pyStr "x.jpg")⟩, pyStr "out.png",
        pyStr "PDF", true, [], [(pyStr "quality", (50 : ℕ))]⟩,
       [pyStr "x.jpg"]) :=
  ⟨by decide, by decide, by decide,
   images_to_pdf_always_pdf_encoder (fun n => ⟨5, 6, PixData.src n⟩)
     (fun n => ⟨5, 6, PixData.src n⟩) [pyStr "x.jpg"] (pyStr "out.png")
     none [(pyStr "quality", (50 : ℕ))] ⟨5, 6, PixData.src (pyStr "x.jpg")⟩
     [] (by decide) (by decide) (by decide)⟩
